import Mathlib

/-!
Verification of the Linux application-resolution slice of cargo-mobile
(`src/os/linux/mod.rs`).

The file `mod.rs` is the only source file available; the `xdg` helper module
(Exec tokenizer, field-code expander, directory search and key-file access)
is not in the sources, so those helpers are either modelled from the spec
(tokenizer and expander, which the spec describes in full) or abstracted as
oracle parameters (directory search, MIME query, key-file parsing), exactly
as `mod.rs` consumes them.
-/

namespace CargoMobile

/-- Whitespace separating Exec tokens (space and tab). -/
def isWS (c : Char) : Bool :=
  c = ' ' || c = '\t'

/-- The backtick character, one of the four escapable characters inside a
quoted run. -/
def btick : Char := Char.ofNat 96

/-- Modelled from the spec: the missing `xdg` Exec tokenizer (§4.2).
State-machine over the input characters.  Arguments: remaining input,
whether we are inside a double-quoted run, the reversed accumulator of the
current token, and whether the current token has started (so that a quoted
run such as a pair of adjacent double quotes still yields a token).  Inside
quotes a backslash escapes exactly double-quote, backtick, dollar and
backslash, and is kept literally before any other character; outside quotes
the backslash has no special meaning.  An unterminated quote (or a dangling
in-quote backslash at end of input) is a parse failure, returning `none`. -/
def tokAux : List Char → Bool → List Char → Bool → Option (List String)
  | [], inQ, acc, started =>
    if inQ then none
    else if started then some [String.mk acc.reverse] else some []
  | c :: rest, true, acc, started =>
    if c = '"' then
      tokAux rest false acc started
    else if c = '\\' then
      match rest with
      | [] => none
      | d :: rest2 =>
        if d = '"' || d = btick || d = '$' || d = '\\' then
          tokAux rest2 true (d :: acc) started
        else
          tokAux rest2 true (d :: '\\' :: acc) started
    else
      tokAux rest true (c :: acc) started
  | c :: rest, false, acc, started =>
    if isWS c then
      if started then
        (tokAux rest false [] false).map (fun ts => String.mk acc.reverse :: ts)
      else
        tokAux rest false [] false
    else if c = '"' then
      tokAux rest true acc true
    else
      tokAux rest false (c :: acc) true

/-- Modelled from the spec: entry point of the missing `xdg` tokenizer. -/
def tokenize (s : String) : Option (List String) :=
  tokAux s.data false [] false

/-- The run-time resolution context handed to the missing
`xdg::parse_command` by its two call sites in `mod.rs`: the target path,
the optional icon, and the optional desktop-entry file path.  (No display
name is among `parse_command`'s visible arguments.) -/
structure ExpandCtx where
  target : String
  icon : Option String
  entryPath : Option String
deriving DecidableEq

/-- The field-code letters that expand to the target path. -/
def isPathCode (c : Char) : Bool :=
  c = 'f' || c = 'u' || c = 'F' || c = 'U'

/-- Characters of the entry-file-path substitution for the k field code. -/
def entryPathChars (ctx : ExpandCtx) : List Char :=
  match ctx.entryPath with
  | some p => p.data
  | none => []

/-- Modelled from the spec: character-wise field-code substitution inside a
single token (§4.3).  A percent followed by a percent yields a literal
percent; followed by f, u, F or U yields the target path; followed by k
yields the entry-file path; any other percent-letter pair is dropped while
the surrounding literal text is kept; a lone trailing percent stays
literal. -/
def substTok (ctx : ExpandCtx) : List Char → List Char
  | [] => []
  | c :: rest =>
    if c = '%' then
      match rest with
      | [] => ['%']
      | d :: rest2 =>
        if d = '%' then '%' :: substTok ctx rest2
        else if isPathCode d then ctx.target.data ++ substTok ctx rest2
        else if d = 'k' then entryPathChars ctx ++ substTok ctx rest2
        else substTok ctx rest2
    else c :: substTok ctx rest

/-- Modelled from the spec: expansion of one token (§4.3).  A token that is
exactly the i field code becomes the two arguments consisting of the icon
flag and the icon value when an icon is present (even an empty one), and
vanishes entirely when the icon is absent; any other token undergoes
character-wise substitution and is dropped if the result is empty. -/
def expandToken (ctx : ExpandCtx) (tok : String) : List String :=
  if tok = "%i" then
    match ctx.icon with
    | some v => ["--icon", v]
    | none => []
  else
    let cs := substTok ctx tok.data
    if cs.isEmpty then [] else [String.mk cs]

/-- Expansion of a whole token sequence, concatenating per-token results. -/
def expandAll (ctx : ExpandCtx) : List String → List String
  | [] => []
  | t :: ts => expandToken ctx t ++ expandAll ctx ts

/-- Modelled from the spec: the missing `xdg::parse_command` (§4.2 + §4.3):
tokenize the raw Exec value, then expand field codes; a malformed Exec
(unterminated quote) yields the empty argument vector, which the callers in
`mod.rs` treat as the command-parsing failure. -/
def parse_command (exec : String) (ctx : ExpandCtx) : List String :=
  match tokenize exec with
  | none => []
  | some toks => expandAll ctx toks

/-- Joining a token sequence with single spaces (for the round-trip
property). -/
def joinSpace : List String → String
  | [] => ""
  | [t] => t
  | t :: ts => t ++ " " ++ joinSpace ts

/-- A token is plain when it is nonempty and contains no whitespace and no
double quote: such tokens survive a join-and-retokenize round trip. -/
def PlainTok (t : String) : Prop :=
  t.data ≠ [] ∧ ∀ c ∈ t.data, isWS c = false ∧ c ≠ '"'

instance (t : String) : Decidable (PlainTok t) := by
  unfold PlainTok; infer_instance

/-- Read-only view of a parsed desktop-entry key file, as consumed by
`mod.rs`: a section name and an attribute name yield an optional raw
value (the contract of the external key-file parser). -/
def EntryView : Type := String → String → Option String

/-- The error enumeration `DetectEditorError` of `mod.rs` (lines 13-27),
with the io-error causes abstracted over a type. -/
inductive DetectEditorError (ε : Type) where
  | noDefaultEditorSet
  | freeDesktopEntryNotFound
  | freeDesktopEntryParseError (cause : ε)
  | freeDesktopEntryLookupFailed (cause : ε)
  | execFieldMissing
deriving DecidableEq

/-- The error enumeration `OpenFileError` of `mod.rs` (lines 29-35), with
the launch-error cause abstracted over a type. -/
inductive OpenFileError (β : Type) where
  | launchFailed (cause : β)
  | commandParsingFailed
deriving DecidableEq

/-- The `Application` struct of `mod.rs` (lines 37-42). -/
structure Application where
  exec_command : String
  icon : Option String
  xdg_entry_path : String
deriving DecidableEq

/-- Field extraction of `detect_editor` (lines 66-79): the Exec value is
mandatory, its absence is the terminal `ExecFieldMissing`; the Icon value
is optional. -/
def buildApplication {ε : Type} (parsed : EntryView) (entryPath : String) :
    Except (DetectEditorError ε) Application :=
  match parsed "Desktop Entry" "Exec" with
  | none => Except.error DetectEditorError.execFieldMissing
  | some execStr =>
    Except.ok
      { exec_command := execStr
        icon := parsed "Desktop Entry" "Icon"
        xdg_entry_path := entryPath }

/-- Parsing of a matched entry file in `detect_editor` (lines 63-64): every
error of the key-file parser, io faults included, is mapped to
`FreeDesktopEntryParseError`. -/
def resolveEntryFile {ε : Type} (parseFile : String → Except ε EntryView)
    (p : String) : Except (DetectEditorError ε) Application :=
  match parseFile p with
  | Except.error e => Except.error (DetectEditorError.freeDesktopEntryParseError e)
  | Except.ok parsed => buildApplication parsed p

/-- The directory loop of `detect_editor` (lines 52-82): for each base
directory, probe its applications subdirectory; an error from the
entry-finding helper is swallowed and the search continues, as is a clean
miss; the first hit ends the search with the parse result of the matched
file. -/
def detectSearch {ε : Type}
    (findEntryInDir : String → String → Except ε (Option String))
    (parseFile : String → Except ε EntryView) (entry : String) :
    List String → Option (Except (DetectEditorError ε) Application)
  | [] => none
  | dir :: dirs =>
    match findEntryInDir (dir ++ "/applications") entry with
    | Except.error _ => detectSearch findEntryInDir parseFile entry dirs
    | Except.ok none => detectSearch findEntryInDir parseFile entry dirs
    | Except.ok (some p) => some (resolveEntryFile parseFile p)

/-- The tail of `detect_editor` after the MIME query (lines 52-84): an
exhausted search is the terminal `FreeDesktopEntryNotFound`; otherwise the
result of the first hit is returned as is. -/
def afterQuery {ε : Type}
    (findEntryInDir : String → String → Except ε (Option String))
    (parseFile : String → Except ε EntryView) (entry : String)
    (dataDirs : List String) : Except (DetectEditorError ε) Application :=
  match detectSearch findEntryInDir parseFile entry dataDirs with
  | none => Except.error DetectEditorError.freeDesktopEntryNotFound
  | some r => r

/-- `Application::detect_editor` (lines 45-85), with the external
collaborators as parameters: the MIME association query, the per-directory
entry finder, the key-file parser, and the ordered data directories.  The
query is made for text/rust first, then for text/plain, and failure of
both is the terminal `NoDefaultEditorSet`. -/
def detect_editor {ε : Type} (q : String → Option String)
    (findEntryInDir : String → String → Except ε (Option String))
    (parseFile : String → Except ε EntryView)
    (dataDirs : List String) : Except (DetectEditorError ε) Application :=
  match q "text/rust" with
  | some entry => afterQuery findEntryInDir parseFile entry dataDirs
  | none =>
    match q "text/plain" with
    | some entry => afterQuery findEntryInDir parseFile entry dataDirs
    | none => Except.error DetectEditorError.noDefaultEditorSet

/-- The launch step shared by `open_file` (lines 105-108) and
`open_file_with` (lines 154-157): the launcher oracle returns `none` on a
successful detached spawn and `some cause` on failure, which is mapped to
`LaunchFailed`. -/
def runLaunch {β : Type} (launcher : List String → Option β)
    (argv : List String) : Except (OpenFileError β) Unit :=
  match launcher argv with
  | none => Except.ok ()
  | some e => Except.error (OpenFileError.launchFailed e)

/-- `Application::open_file` (lines 87-112): expand the stored Exec value
with the given path, the stored icon and the entry path; a nonempty
argument vector is handed to the launcher, an empty one is the terminal
`CommandParsingFailed`. -/
def open_file {β : Type} (launcher : List String → Option β)
    (app : Application) (path : String) : Except (OpenFileError β) Unit :=
  match parse_command app.exec_command
      { target := path, icon := app.icon, entryPath := some app.xdg_entry_path } with
  | [] => Except.error OpenFileError.commandParsingFailed
  | c :: rest => runLaunch launcher (c :: rest)

/-- The directory loop of `open_file_with` (lines 122-149): per base
directory, look up an entry by application name (misses and swallowed
directory errors are `none`); a hit without an Exec value, or whose
expansion is empty, is treated as a miss and the search continues;
otherwise the nonempty expanded argument vector ends the search. -/
def nameSearch (findByName : String → String → Option (EntryView × String))
    (appName path : String) : List String → Option (List String)
  | [] => none
  | dir :: dirs =>
    match findByName (dir ++ "/applications") appName with
    | none => nameSearch findByName appName path dirs
    | some (entry, entryPath) =>
      match entry "Desktop Entry" "Exec" with
      | none => nameSearch findByName appName path dirs
      | some execStr =>
        let parts := parse_command execStr
          { target := path
            icon := entry "Desktop Entry" "Icon"
            entryPath := some entryPath }
        if parts.isEmpty then nameSearch findByName appName path dirs
        else some parts

/-- `open_file_with` (lines 115-158): search the data directories by
application name; when the search yields nothing the supplied name itself
becomes the single-element argument vector; the result is handed to the
launcher. -/
def open_file_with {β : Type} (launcher : List String → Option β)
    (findByName : String → String → Option (EntryView × String))
    (dataDirs : List String) (application path : String) :
    Except (OpenFileError β) Unit :=
  runLaunch launcher
    ((nameSearch findByName application path dataDirs).getD [application])

/-- A launcher oracle whose spawns always succeed. -/
def launcherOk : List String → Option Unit := fun _ => none

/-- A concrete resolution context used to instantiate general theorems. -/
def ctx0 : ExpandCtx :=
  { target := "/tmp/a.rs", icon := none, entryPath := none }

/-- A concrete application whose stored Exec value is empty. -/
def appEmptyExec : Application :=
  { exec_command := "", icon := none, xdg_entry_path := "/e.desktop" }

/-- A MIME query oracle that only answers for text/rust. -/
def qRustOnly : String → Option String := fun m =>
  if m = "text/rust" then some "ed.desktop" else none

/-- A MIME query oracle that only answers for text/plain. -/
def qPlainOnly : String → Option String := fun m =>
  if m = "text/plain" then some "pl.desktop" else none

/-- A MIME query oracle that never answers. -/
def qNever : String → Option String := fun _ => none

/-- An entry finder that fails with an io error on every directory. -/
def fdErr : String → String → Except String (Option String) :=
  fun _ _ => Except.error "io"

/-- An entry finder that cleanly misses on every directory. -/
def fdMiss : String → String → Except String (Option String) :=
  fun _ _ => Except.ok none

/-- An entry finder that hits in every directory. -/
def fdHit : String → String → Except String (Option String) :=
  fun _ _ => Except.ok (some "/apps/ed.desktop")

/-- A key-file parser that fails with an io fault on every file. -/
def pfIOFault : String → Except String EntryView :=
  fun _ => Except.error "io"

/-- A desktop-entry view with an Exec value and no Icon value. -/
def entryVim : EntryView := fun sec attr =>
  if sec = "Desktop Entry" then
    if attr = "Exec" then some "vim %f" else none
  else none

/-- A key-file parser that successfully yields `entryVim` for every file. -/
def pfVim : String → Except String EntryView :=
  fun _ => Except.ok entryVim

/-- A desktop-entry view with no attributes at all. -/
def entryBare : EntryView := fun _ _ => none

/-- A key-file parser that successfully yields `entryBare` for every file. -/
def pfBare : String → Except String EntryView :=
  fun _ => Except.ok entryBare

/-- A by-name entry finder that never finds anything. -/
def fnbNone : String → String → Option (EntryView × String) :=
  fun _ _ => none

/-- A by-name entry finder that always yields the attribute-less entry. -/
def fnbBare : String → String → Option (EntryView × String) :=
  fun _ _ => some (entryBare, "/apps/x.desktop")

/-- A run of plain characters is accumulated verbatim by the tokenizer. -/
theorem tokAux_plain_run :
    ∀ (cs rest acc : List Char),
    (∀ c ∈ cs, isWS c = false ∧ c ≠ '"') →
    tokAux (cs ++ rest) false acc true
      = tokAux rest false (cs.reverse ++ acc) true := by
  intro cs
  induction cs with
  | nil => intro rest acc _; simp
  | cons c cs ih =>
    intro rest acc h
    have hc := h c (by simp)
    have hcs : ∀ x ∈ cs, isWS x = false ∧ x ≠ '"' :=
      fun x hx => h x (by simp [hx])
    have step : tokAux (c :: (cs ++ rest)) false acc true
        = tokAux (cs ++ rest) false (c :: acc) true := by
      simp [tokAux, hc.1, hc.2]
    rw [List.cons_append, step, ih rest (c :: acc) hcs]
    simp

/-- Starting a fresh token on a plain first character. -/
theorem tokAux_plain_start (c : Char) (cs rest : List Char)
    (hc1 : isWS c = false) (hc2 : c ≠ '"')
    (hcs : ∀ x ∈ cs, isWS x = false ∧ x ≠ '"') :
    tokAux (c :: cs ++ rest) false [] false
      = tokAux rest false (cs.reverse ++ [c]) true := by
  have step : tokAux (c :: (cs ++ rest)) false [] false
      = tokAux (cs ++ rest) false [c] true := by
    simp [tokAux, hc1, hc2]
  rw [List.cons_append, step, tokAux_plain_run cs rest [c] hcs]

/-- Joining plain tokens with single spaces and tokenizing recovers the
token sequence. -/
theorem tokAux_joinSpace :
    ∀ (toks : List String), (∀ t ∈ toks, PlainTok t) →
    tokAux (joinSpace toks).data false [] false = some toks := by
  intro toks
  induction toks with
  | nil => intro _; rfl
  | cons t ts ih =>
    intro h
    obtain ⟨hne, hall⟩ := h t (by simp)
    obtain ⟨c, cs, hdata⟩ : ∃ c cs, t.data = c :: cs := by
      cases hd : t.data with
      | nil => exact absurd hd hne
      | cons c cs => exact ⟨c, cs, rfl⟩
    have hc := hall c (by rw [hdata]; simp)
    have hcs : ∀ x ∈ cs, isWS x = false ∧ x ≠ '"' :=
      fun x hx => hall x (by rw [hdata]; simp [hx])
    have hmk : String.mk (c :: cs) = t := by
      rw [← hdata]
    cases ts with
    | nil =>
      show tokAux t.data false [] false = some [t]
      have h0 : tokAux (c :: cs ++ []) false [] false
          = tokAux [] false (cs.reverse ++ [c]) true :=
        tokAux_plain_start c cs [] hc.1 hc.2 hcs
      rw [List.append_nil] at h0
      rw [hdata, h0]
      simp [tokAux, hmk]
    | cons t2 ts2 =>
      have hjoin : joinSpace (t :: t2 :: ts2) = t ++ " " ++ joinSpace (t2 :: ts2) := rfl
      have hdata2 : (joinSpace (t :: t2 :: ts2)).data
          = c :: cs ++ (' ' :: (joinSpace (t2 :: ts2)).data) := by
        rw [hjoin, String.data_append, String.data_append, hdata]
        simp
      rw [hdata2, tokAux_plain_start c cs _ hc.1 hc.2 hcs]
      have hsp : tokAux (' ' :: (joinSpace (t2 :: ts2)).data) false (cs.reverse ++ [c]) true
          = (tokAux (joinSpace (t2 :: ts2)).data false [] false).map
              (fun us => String.mk (cs.reverse ++ [c]).reverse :: us) := by
        simp [tokAux, isWS]
      rw [hsp, ih (fun x hx => h x (by simp [hx]))]
      simp [hmk]

/-- Anything the directory search yields comes from resolving the matched
file. -/
theorem detectSearch_shape {ε : Type}
    (f : String → String → Except ε (Option String))
    (pf : String → Except ε EntryView) (entry : String) :
    ∀ (dirs : List String) (r : Except (DetectEditorError ε) Application),
    detectSearch f pf entry dirs = some r → ∃ p, r = resolveEntryFile pf p := by
  intro dirs
  induction dirs with
  | nil => intro r h; simp [detectSearch] at h
  | cons d ds ih =>
    intro r h
    cases hf : f (d ++ "/applications") entry with
    | error e =>
      simp only [detectSearch, hf] at h
      exact ih r h
    | ok o =>
      cases o with
      | none =>
        simp only [detectSearch, hf] at h
        exact ih r h
      | some p =>
        simp only [detectSearch, hf, Option.some.injEq] at h
        exact ⟨p, h.symm⟩

/-- The possible outcomes of resolving a matched entry file. -/
theorem resolveEntryFile_cases {ε : Type}
    (pf : String → Except ε EntryView) (p : String) :
    (∃ c, resolveEntryFile pf p
        = Except.error (DetectEditorError.freeDesktopEntryParseError c)) ∨
    resolveEntryFile pf p = Except.error DetectEditorError.execFieldMissing ∨
    (∃ a, resolveEntryFile pf p = Except.ok a) := by
  cases hpf : pf p with
  | error e => exact Or.inl ⟨e, by simp [resolveEntryFile, hpf]⟩
  | ok parsed =>
    cases hx : parsed "Desktop Entry" "Exec" with
    | none =>
      exact Or.inr (Or.inl (by simp [resolveEntryFile, hpf, buildApplication, hx]))
    | some c =>
      refine Or.inr (Or.inr
        ⟨Application.mk c (parsed "Desktop Entry" "Icon") p, ?_⟩)
      simp [resolveEntryFile, hpf, buildApplication, hx]

/-- The error kinds the post-query phase can produce. -/
theorem afterQuery_error_cases {ε : Type}
    (f : String → String → Except ε (Option String))
    (pf : String → Except ε EntryView) (entry : String)
    (dataDirs : List String) (err : DetectEditorError ε)
    (h : afterQuery f pf entry dataDirs = Except.error err) :
    err = DetectEditorError.freeDesktopEntryNotFound ∨
    (∃ c, err = DetectEditorError.freeDesktopEntryParseError c) ∨
    err = DetectEditorError.execFieldMissing := by
  cases hds : detectSearch f pf entry dataDirs with
  | none =>
    simp only [afterQuery, hds, Except.error.injEq] at h
    exact Or.inl h.symm
  | some r =>
    simp only [afterQuery, hds] at h
    obtain ⟨p, rfl⟩ := detectSearch_shape f pf entry dataDirs r hds
    rcases resolveEntryFile_cases pf p with ⟨c, hc⟩ | hc | ⟨a, hc⟩
    · rw [hc] at h
      injection h with h'
      exact Or.inr (Or.inl ⟨c, h'.symm⟩)
    · rw [hc] at h
      injection h with h'
      exact Or.inr (Or.inr h'.symm)
    · rw [hc] at h
      cases h

/-- The by-name search misses when the finder misses in every directory. -/
theorem nameSearch_eq_none
    (findByName : String → String → Option (EntryView × String))
    (appName path : String) :
    ∀ (dirs : List String),
    (∀ dir ∈ dirs, findByName (dir ++ "/applications") appName = none) →
    nameSearch findByName appName path dirs = none := by
  intro dirs
  induction dirs with
  | nil => intro _; rfl
  | cons d ds ih =>
    intro h
    have hd := h d (by simp)
    simp only [nameSearch, hd]
    exact ih (fun x hx => h x (by simp [hx]))

/-- C1: for every Application, when the expansion of the stored Exec value
yields an empty argument vector, `open_file` returns `CommandParsingFailed`;
an empty Exec string always expands to the empty vector, so an application
with an empty Exec value always fails that way; and the launcher's
behaviour on an empty argument vector can never influence the result, i.e.
an empty argv is never passed to the process launcher. -/
theorem c1_open_file_empty_argv_is_parsing_failure :
    (∀ (β : Type) (launcher : List String → Option β) (app : Application)
        (path : String),
      parse_command app.exec_command
          { target := path, icon := app.icon,
            entryPath := some app.xdg_entry_path } = [] →
      open_file launcher app path
        = Except.error OpenFileError.commandParsingFailed) ∧
    (∀ ctx : ExpandCtx, parse_command "" ctx = []) ∧
    (∀ (β : Type) (launcher : List String → Option β) (app : Application)
        (path : String),
      app.exec_command = "" →
      open_file launcher app path
        = Except.error OpenFileError.commandParsingFailed) ∧
    (∀ (β : Type) (l1 l2 : List String → Option β) (app : Application)
        (path : String),
      (∀ argv : List String, argv ≠ [] → l1 argv = l2 argv) →
      open_file l1 app path = open_file l2 app path) := by
  refine ⟨?_, ?_, ?_, ?_⟩
  · intro β launcher app path h
    simp [open_file, h]
  · intro ctx
    rfl
  · intro β launcher app path h
    have h0 : parse_command app.exec_command
        { target := path, icon := app.icon,
          entryPath := some app.xdg_entry_path } = [] := by
      rw [h]
      rfl
    simp [open_file, h0]
  · intro β l1 l2 app path h
    cases hp : parse_command app.exec_command
        { target := path, icon := app.icon,
          entryPath := some app.xdg_entry_path } with
    | nil => simp [open_file, hp]
    | cons c rest =>
      have hl := h (c :: rest) (by simp)
      simp [open_file, hp, runLaunch, hl]

/-- Witness for C1: a concrete application with an empty Exec value fails
with the command-parsing error. -/
theorem c1_witness_empty_exec :
    open_file launcherOk appEmptyExec "/tmp/a.rs"
      = Except.error OpenFileError.commandParsingFailed :=
  c1_open_file_empty_argv_is_parsing_failure.1 Unit launcherOk appEmptyExec
    "/tmp/a.rs" rfl

/-- C2: a token that is exactly the i field code expands to the two
arguments consisting of the icon flag and the icon value whenever an icon
is present — including a present-but-empty icon — and vanishes entirely,
leaving no stray empty argument, when the icon is absent; the spec's two
worked examples hold. -/
theorem c2_icon_field_code_expansion :
    (∀ (t : String) (ep : Option String) (v : String),
      expandToken { target := t, icon := some v, entryPath := ep } "%i"
        = ["--icon", v]) ∧
    (∀ (t : String) (ep : Option String),
      expandToken { target := t, icon := none, entryPath := ep } "%i" = []) ∧
    parse_command "editor %f %i"
      { target := "/tmp/a.rs", icon := some "edit-icon", entryPath := none }
      = ["editor", "/tmp/a.rs", "--icon", "edit-icon"] ∧
    parse_command "editor %f %i"
      { target := "/tmp/a.rs", icon := some "", entryPath := none }
      = ["editor", "/tmp/a.rs", "--icon", ""] ∧
    parse_command "editor %f %i"
      { target := "/tmp/a.rs", icon := none, entryPath := none }
      = ["editor", "/tmp/a.rs"] := by
  refine ⟨?_, ?_, rfl, rfl, rfl⟩
  · intro t ep v
    simp [expandToken]
  · intro t ep
    simp [expandToken]

/-- C3: the directory search takes the result of the first directory whose
probe hits; a probe that fails with an io error, like a probe that cleanly
misses, is skipped and the search continues with the remaining directories,
so such errors are never surfaced; in full generality, when every earlier
directory fails or misses, the first hit determines the result. -/
theorem c3_search_precedence_and_error_tolerance :
    (∀ (ε : Type) (f : String → String → Except ε (Option String))
        (pf : String → Except ε EntryView) (entry d : String)
        (dirs : List String) (e : ε),
      f (d ++ "/applications") entry = Except.error e →
      detectSearch f pf entry (d :: dirs) = detectSearch f pf entry dirs) ∧
    (∀ (ε : Type) (f : String → String → Except ε (Option String))
        (pf : String → Except ε EntryView) (entry d : String)
        (dirs : List String),
      f (d ++ "/applications") entry = Except.ok none →
      detectSearch f pf entry (d :: dirs) = detectSearch f pf entry dirs) ∧
    (∀ (ε : Type) (f : String → String → Except ε (Option String))
        (pf : String → Except ε EntryView) (entry d : String)
        (dirs : List String) (p : String),
      f (d ++ "/applications") entry = Except.ok (some p) →
      detectSearch f pf entry (d :: dirs) = some (resolveEntryFile pf p)) ∧
    (∀ (ε : Type) (f : String → String → Except ε (Option String))
        (pf : String → Except ε EntryView) (entry : String)
        (pre : List String) (d : String) (post : List String) (p : String),
      (∀ d' ∈ pre, ∀ p', f (d' ++ "/applications") entry ≠ Except.ok (some p')) →
      f (d ++ "/applications") entry = Except.ok (some p) →
      detectSearch f pf entry (pre ++ d :: post)
        = some (resolveEntryFile pf p)) := by
  refine ⟨?_, ?_, ?_, ?_⟩
  · intro ε f pf entry d dirs e h
    simp only [detectSearch, h]
  · intro ε f pf entry d dirs h
    simp only [detectSearch, h]
  · intro ε f pf entry d dirs p h
    simp only [detectSearch, h]
  · intro ε f pf entry pre
    induction pre with
    | nil =>
      intro d post p _ hd
      simp only [List.nil_append, detectSearch, hd]
    | cons d0 pre ih =>
      intro d post p hpre hd
      have hnext : ∀ d' ∈ pre, ∀ p',
          f (d' ++ "/applications") entry ≠ Except.ok (some p') :=
        fun x hx => hpre x (by simp [hx])
      cases hf : f (d0 ++ "/applications") entry with
      | error e =>
        rw [List.cons_append]
        simp only [detectSearch, hf]
        exact ih d post p hnext hd
      | ok o =>
        cases o with
        | none =>
          rw [List.cons_append]
          simp only [detectSearch, hf]
          exact ih d post p hnext hd
        | some p' =>
          exact absurd hf (hpre d0 (by simp) p')

/-- Witness for C3: with a concrete erroring finder in front, the entry of
the second directory wins; with a concrete hitting finder in front, the
first directory wins. -/
theorem c3_witness_concrete :
    detectSearch fdErr pfVim "ed.desktop" ["d0", "d1"]
      = detectSearch fdErr pfVim "ed.desktop" ["d1"] ∧
    detectSearch fdHit pfVim "ed.desktop" ["d0", "d1"]
      = some (resolveEntryFile pfVim "/apps/ed.desktop") :=
  ⟨c3_search_precedence_and_error_tolerance.1 String fdErr pfVim "ed.desktop"
      "d0" ["d1"] "io" rfl,
    c3_search_precedence_and_error_tolerance.2.2.1 String fdHit pfVim
      "ed.desktop" "d0" ["d1"] "/apps/ed.desktop" rfl⟩

/-- C4: `detect_editor` asks the MIME oracle for text/rust first and
proceeds with that entry on success; only when that query fails does it ask
for text/plain and proceed with that entry; and the result is the
`NoDefaultEditorSet` error exactly when both queries fail. -/
theorem c4_mime_query_fallback :
    (∀ (ε : Type) (q : String → Option String)
        (f : String → String → Except ε (Option String))
        (pf : String → Except ε EntryView) (dirs : List String)
        (entry : String),
      q "text/rust" = some entry →
      detect_editor q f pf dirs = afterQuery f pf entry dirs) ∧
    (∀ (ε : Type) (q : String → Option String)
        (f : String → String → Except ε (Option String))
        (pf : String → Except ε EntryView) (dirs : List String)
        (entry : String),
      q "text/rust" = none → q "text/plain" = some entry →
      detect_editor q f pf dirs = afterQuery f pf entry dirs) ∧
    (∀ (ε : Type) (q : String → Option String)
        (f : String → String → Except ε (Option String))
        (pf : String → Except ε EntryView) (dirs : List String),
      detect_editor q f pf dirs
          = Except.error DetectEditorError.noDefaultEditorSet ↔
        (q "text/rust" = none ∧ q "text/plain" = none)) := by
  refine ⟨?_, ?_, ?_⟩
  · intro ε q f pf dirs entry h
    simp [detect_editor, h]
  · intro ε q f pf dirs entry h1 h2
    simp [detect_editor, h1, h2]
  · intro ε q f pf dirs
    constructor
    · intro h
      cases hq : q "text/rust" with
      | some entry =>
        simp only [detect_editor, hq] at h
        rcases afterQuery_error_cases f pf entry dirs _ h with h' | ⟨c, h'⟩ | h' <;>
          simp at h'
      | none =>
        cases hq2 : q "text/plain" with
        | some entry =>
          simp only [detect_editor, hq, hq2] at h
          rcases afterQuery_error_cases f pf entry dirs _ h with h' | ⟨c, h'⟩ | h' <;>
            simp at h'
        | none => exact ⟨rfl, rfl⟩
    · intro h
      simp [detect_editor, h.1, h.2]

/-- Witness for C4: with concrete oracles, a rust-only query proceeds past
the query stage, a plain-only query does as well, and a never-answering
query yields the no-default-editor error. -/
theorem c4_witness_concrete :
    detect_editor qRustOnly fdMiss pfVim ["d0"]
      = afterQuery fdMiss pfVim "ed.desktop" ["d0"] ∧
    detect_editor qPlainOnly fdMiss pfVim ["d0"]
      = afterQuery fdMiss pfVim "pl.desktop" ["d0"] ∧
    detect_editor qNever fdMiss pfVim ["d0"]
      = Except.error DetectEditorError.noDefaultEditorSet :=
  ⟨c4_mime_query_fallback.1 String qRustOnly fdMiss pfVim ["d0"] "ed.desktop" rfl,
    c4_mime_query_fallback.2.1 String qPlainOnly fdMiss pfVim ["d0"]
      "pl.desktop" rfl rfl,
    (c4_mime_query_fallback.2.2 String qNever fdMiss pfVim ["d0"]).mpr
      ⟨rfl, rfl⟩⟩

/-- C5 counterexample: with a query that answers, a finder that hits in the
first directory, and a file reader that fails with an io fault on the
matched file, `detect_editor` surfaces the fault through the
`FreeDesktopEntryParseError` constructor and not through the declared
`FreeDesktopEntryLookupFailed` constructor, contradicting the claim that
read faults on the matched file are a distinct lookup error. -/
theorem c5_counterexample_io_fault_not_lookup_error :
    detect_editor qRustOnly fdHit pfIOFault ["d1"]
      = Except.error (DetectEditorError.freeDesktopEntryParseError "io") ∧
    detect_editor qRustOnly fdHit pfIOFault ["d1"]
      ≠ Except.error (DetectEditorError.freeDesktopEntryLookupFailed "io") := by
  refine ⟨rfl, fun h => ?_⟩
  have h2 : (Except.error (DetectEditorError.freeDesktopEntryParseError "io") :
      Except (DetectEditorError String) Application)
      = Except.error (DetectEditorError.freeDesktopEntryLookupFailed "io") := by
    rw [← h]
    rfl
  simp at h2

/-- C5 amended: an io fault while reading the matched entry file is
surfaced through `FreeDesktopEntryParseError` — the same constructor used
for a file that is read but malformed — and `detect_editor` never returns
the declared-but-unused `FreeDesktopEntryLookupFailed` constructor;
exhausting the search without a match still yields
`FreeDesktopEntryNotFound`. -/
theorem c5_matched_file_fault_is_parse_error :
    (∀ (ε : Type) (pf : String → Except ε EntryView) (p : String) (e : ε),
      pf p = Except.error e →
      resolveEntryFile pf p
        = Except.error (DetectEditorError.freeDesktopEntryParseError e)) ∧
    (∀ (ε : Type) (q : String → Option String)
        (f : String → String → Except ε (Option String))
        (pf : String → Except ε EntryView) (dirs : List String) (e : ε),
      detect_editor q f pf dirs
        ≠ Except.error (DetectEditorError.freeDesktopEntryLookupFailed e)) ∧
    (∀ (ε : Type) (f : String → String → Except ε (Option String))
        (pf : String → Except ε EntryView) (entry : String)
        (dirs : List String),
      detectSearch f pf entry dirs = none →
      afterQuery f pf entry dirs
        = Except.error DetectEditorError.freeDesktopEntryNotFound) := by
  refine ⟨?_, ?_, ?_⟩
  · intro ε pf p e h
    simp [resolveEntryFile, h]
  · intro ε q f pf dirs e h
    cases hq : q "text/rust" with
    | some entry =>
      simp only [detect_editor, hq] at h
      rcases afterQuery_error_cases f pf entry dirs _ h with h' | ⟨c, h'⟩ | h' <;>
        simp at h'
    | none =>
      cases hq2 : q "text/plain" with
      | some entry =>
        simp only [detect_editor, hq, hq2] at h
        rcases afterQuery_error_cases f pf entry dirs _ h with h' | ⟨c, h'⟩ | h' <;>
          simp at h'
      | none =>
        simp only [detect_editor, hq, hq2] at h
        simp at h
  · intro ε f pf entry dirs h
    simp [afterQuery, h]

/-- Witness for the amended C5: a concrete io fault on the matched file
comes back as the parse-error constructor, and a concrete exhausted search
comes back as entry-not-found. -/
theorem c5_witness_concrete :
    resolveEntryFile pfIOFault "/apps/ed.desktop"
      = Except.error (DetectEditorError.freeDesktopEntryParseError "io") ∧
    afterQuery fdMiss pfVim "ed.desktop" ["d0"]
      = Except.error DetectEditorError.freeDesktopEntryNotFound :=
  ⟨c5_matched_file_fault_is_parse_error.1 String pfIOFault "/apps/ed.desktop"
      "io" rfl,
    c5_matched_file_fault_is_parse_error.2.2 String fdMiss pfVim "ed.desktop"
      ["d0"] rfl⟩

/-- C6: a doubled percent is replaced by a literal percent; a percent
followed by an unrecognized field-code letter vanishes while the rest of
the token is kept; literal characters pass through; and the spec's worked
example holds: the Exec value consisting of two percents and the letter d
expands to the single argument percent-d. -/
theorem c6_percent_escapes_and_unsupported_codes :
    (∀ (ctx : ExpandCtx) (cs : List Char),
      substTok ctx ('%' :: '%' :: cs) = '%' :: substTok ctx cs) ∧
    (∀ (ctx : ExpandCtx) (x : Char) (cs : List Char),
      x ∉ ['%', 'f', 'u', 'F', 'U', 'i', 'c', 'k'] →
      substTok ctx ('%' :: x :: cs) = substTok ctx cs) ∧
    (∀ (ctx : ExpandCtx) (c : Char) (cs : List Char),
      c ≠ '%' → substTok ctx (c :: cs) = c :: substTok ctx cs) ∧
    (∀ ctx : ExpandCtx, parse_command "%%d" ctx = ["%d"]) := by
  refine ⟨?_, ?_, ?_, ?_⟩
  · intro ctx cs
    rfl
  · intro ctx x cs hx
    have h1 : ¬(x = '%') := by intro e; exact hx (by simp [e])
    have hf : ¬(x = 'f') := by intro e; exact hx (by simp [e])
    have hu : ¬(x = 'u') := by intro e; exact hx (by simp [e])
    have hF : ¬(x = 'F') := by intro e; exact hx (by simp [e])
    have hU : ¬(x = 'U') := by intro e; exact hx (by simp [e])
    have hk : ¬(x = 'k') := by intro e; exact hx (by simp [e])
    have hpc : isPathCode x = false := by simp [isPathCode, hf, hu, hF, hU]
    simp [substTok, h1, hpc, hk]
  · intro ctx c cs hc
    cases cs with
    | nil => simp [substTok, hc]
    | cons d rest => simp [substTok, hc]
  · intro ctx
    rfl

/-- Witness for C6: the unsupported code d after a percent vanishes and a
plain letter passes through, at concrete inputs. -/
theorem c6_witness_concrete :
    substTok ctx0 ['%', 'd'] = substTok ctx0 [] ∧
    substTok ctx0 ['a'] = 'a' :: substTok ctx0 [] :=
  ⟨c6_percent_escapes_and_unsupported_codes.2.1 ctx0 'd' [] (by decide),
    c6_percent_escapes_and_unsupported_codes.2.2.1 ctx0 'a' [] (by decide)⟩

/-- C7 counterexample: the input consisting of a double-quoted a-space-b
has balanced quotes and tokenizes to the single token a-space-b, but
joining with single spaces and re-tokenizing splits it into two tokens, so
re-tokenization does not reproduce the token sequence for every
balanced-quote input. -/
theorem c7_counterexample_quoted_whitespace :
    tokenize "\"a b\"" = some ["a b"] ∧
    tokenize (joinSpace ["a b"]) = some ["a", "b"] ∧
    (some ["a", "b"] : Option (List String)) ≠ some ["a b"] :=
  ⟨rfl, rfl, by decide⟩

/-- C7 amended: for any balanced-quote input whose token sequence consists
of nonempty tokens free of whitespace and double quotes, joining the
tokens with single spaces and re-tokenizing yields the same token
sequence. -/
theorem c7_retokenize_plain_tokens (s : String) (toks : List String)
    (_h : tokenize s = some toks) (hp : ∀ t ∈ toks, PlainTok t) :
    tokenize (joinSpace toks) = some toks :=
  tokAux_joinSpace toks hp

/-- Witness for C7: re-tokenizing the joined tokens of a concrete input
with collapsed whitespace gives the same two tokens back. -/
theorem c7_witness_concrete :
    tokenize (joinSpace ["editor", "%f"]) = some ["editor", "%f"] :=
  c7_retokenize_plain_tokens "editor  %f" ["editor", "%f"] rfl (by decide)

/-- C8: a located and successfully parsed entry without an Exec value under
the Desktop Entry section resolves to the `ExecFieldMissing` error, while a
missing Icon value is no error — the Application is built with an absent
icon. -/
theorem c8_exec_mandatory_icon_optional :
    (∀ (ε : Type) (pf : String → Except ε EntryView) (p : String)
        (parsed : EntryView),
      pf p = Except.ok parsed →
      parsed "Desktop Entry" "Exec" = none →
      resolveEntryFile pf p
        = Except.error DetectEditorError.execFieldMissing) ∧
    (∀ (ε : Type) (pf : String → Except ε EntryView) (p : String)
        (parsed : EntryView) (c : String),
      pf p = Except.ok parsed →
      parsed "Desktop Entry" "Exec" = some c →
      parsed "Desktop Entry" "Icon" = none →
      resolveEntryFile pf p = Except.ok (Application.mk c none p)) := by
  refine ⟨?_, ?_⟩
  · intro ε pf p parsed h1 h2
    simp [resolveEntryFile, h1, buildApplication, h2]
  · intro ε pf p parsed c h1 h2 h3
    simp [resolveEntryFile, h1, buildApplication, h2, h3]

/-- Witness for C8: a concrete attribute-less entry yields the missing-Exec
error, and a concrete entry with an Exec value but no Icon value yields an
application with an absent icon. -/
theorem c8_witness_concrete :
    resolveEntryFile pfBare "/apps/x.desktop"
      = Except.error DetectEditorError.execFieldMissing ∧
    resolveEntryFile pfVim "/apps/ed.desktop"
      = Except.ok (Application.mk "vim %f" none "/apps/ed.desktop") :=
  ⟨c8_exec_mandatory_icon_optional.1 String pfBare "/apps/x.desktop"
      entryBare rfl rfl,
    c8_exec_mandatory_icon_optional.2 String pfVim "/apps/ed.desktop"
      entryVim "vim %f" rfl rfl rfl⟩

/-- C9: when the by-name lookup finds no entry in any searched directory,
`open_file_with` returns no lookup error: the supplied application name
itself becomes the single-element argument vector and the launch is
attempted with it. -/
theorem c9_open_file_with_name_fallback (β : Type)
    (launcher : List String → Option β)
    (findByName : String → String → Option (EntryView × String))
    (dataDirs : List String) (application path : String)
    (h : ∀ dir ∈ dataDirs,
      findByName (dir ++ "/applications") application = none) :
    open_file_with launcher findByName dataDirs application path
      = runLaunch launcher [application] := by
  unfold open_file_with
  rw [nameSearch_eq_none findByName application path dataDirs h]
  rfl

/-- Witness for C9: with a concrete finder that never finds anything, the
launch is attempted with exactly the supplied name. -/
theorem c9_witness_concrete :
    open_file_with launcherOk fnbNone ["d0", "d1"] "kate" "/tmp/a.rs"
      = runLaunch launcherOk ["kate"] :=
  c9_open_file_with_name_fallback Unit launcherOk fnbNone ["d0", "d1"] "kate"
    "/tmp/a.rs" (fun _ _ => rfl)

/-- C10: `open_file_with` never returns `CommandParsingFailed`: a matched
entry without an Exec value, or whose Exec expansion is empty, is treated
exactly like a miss and the search continues; every outcome is either
success or a `LaunchFailed` error. -/
theorem c10_open_file_with_never_parse_failure :
    (∀ (β : Type) (launcher : List String → Option β)
        (findByName : String → String → Option (EntryView × String))
        (dataDirs : List String) (application path : String),
      open_file_with launcher findByName dataDirs application path
        ≠ Except.error OpenFileError.commandParsingFailed) ∧
    (∀ (β : Type) (launcher : List String → Option β)
        (findByName : String → String → Option (EntryView × String))
        (d : String) (dirs : List String) (application path : String)
        (entry : EntryView) (p : String),
      findByName (d ++ "/applications") application = some (entry, p) →
      entry "Desktop Entry" "Exec" = none →
      open_file_with launcher findByName (d :: dirs) application path
        = open_file_with launcher findByName dirs application path) ∧
    (∀ (β : Type) (launcher : List String → Option β)
        (findByName : String → String → Option (EntryView × String))
        (d : String) (dirs : List String) (application path : String)
        (entry : EntryView) (p ex : String),
      findByName (d ++ "/applications") application = some (entry, p) →
      entry "Desktop Entry" "Exec" = some ex →
      parse_command ex
          { target := path, icon := entry "Desktop Entry" "Icon",
            entryPath := some p } = [] →
      open_file_with launcher findByName (d :: dirs) application path
        = open_file_with launcher findByName dirs application path) ∧
    (∀ (β : Type) (launcher : List String → Option β)
        (findByName : String → String → Option (EntryView × String))
        (dataDirs : List String) (application path : String),
      open_file_with launcher findByName dataDirs application path
          = Except.ok () ∨
        ∃ e, open_file_with launcher findByName dataDirs application path
          = Except.error (OpenFileError.launchFailed e)) := by
  refine ⟨?_, ?_, ?_, ?_⟩
  · intro β launcher findByName dataDirs application path h
    cases hl : launcher
        ((nameSearch findByName application path dataDirs).getD [application]) with
    | none =>
      simp only [open_file_with, runLaunch, hl] at h
      cases h
    | some e =>
      simp only [open_file_with, runLaunch, hl] at h
      simp at h
  · intro β launcher findByName d dirs application path entry p h1 h2
    simp only [open_file_with, nameSearch, h1, h2]
  · intro β launcher findByName d dirs application path entry p ex h1 h2 h3
    simp [open_file_with, nameSearch, h1, h2, h3]
  · intro β launcher findByName dataDirs application path
    unfold open_file_with runLaunch
    cases launcher
        ((nameSearch findByName application path dataDirs).getD [application]) with
    | none => exact Or.inl rfl
    | some e => exact Or.inr ⟨e, rfl⟩

/-- Witness for C10: with a concrete finder yielding an entry without an
Exec value, the leading directory is skipped, and the overall result is
not the command-parsing failure. -/
theorem c10_witness_concrete :
    open_file_with launcherOk fnbBare ["d0"] "kate" "/tmp/a.rs"
      = open_file_with launcherOk fnbBare [] "kate" "/tmp/a.rs" ∧
    open_file_with launcherOk fnbBare ["d0"] "kate" "/tmp/a.rs"
      ≠ Except.error OpenFileError.commandParsingFailed :=
  ⟨c10_open_file_with_never_parse_failure.2.1 Unit launcherOk fnbBare "d0" []
      "kate" "/tmp/a.rs" entryBare "/apps/x.desktop" rfl rfl,
    c10_open_file_with_never_parse_failure.1 Unit launcherOk fnbBare ["d0"]
      "kate" "/tmp/a.rs"⟩

end CargoMobile
